import Mathlib

/-!
Verification development for the DTB Selector tool (`dtb_selector.py`).

The program is a sequential, single-process CLI: it loads a JSON catalog of
console profiles, lets the user pick a brand and a console through numeric
menus, asks for confirmation, cleans stale artifacts out of the working
directory, copies the files of the chosen console in, and finally tags a language
choice with a marker file (`.cn` / `.br`; no file for English).

The shallow embedding below models:
  * the working directory as a flat list of (name, content) files plus a
    list of directory names (`FS`);
  * the outcomes of external I/O (individual deletions, marker writes,
    directory existence, recursive-copy success and effect) as explicit
    environments (`FsEnv`, `CopyEnv`);
  * user input as a list of strings consumed in order, with running out of
    input standing for end-of-file (which the program treats as a clean
    user cancellation, exit code 0);
  * the whole of `main` as the function `run`, which returns the exit code,
    the final working directory, a trace of the stages reached, and the
    fatal configuration message, if any.
-/

/-- A file system state: the flat contents of the working directory.
`files` are (name, content) pairs, `dirs` are directory names. -/
structure FS where
  files : List (String × String)
  dirs : List String
deriving DecidableEq, Repr

/-- Does a file with the given name exist? (`os.path.exists` for files.) -/
def FS.hasFile (fs : FS) (n : String) : Bool :=
  fs.files.any (fun f => f.1 == n)

/-- Delete a file (`os.remove`): drop every entry with that name. -/
def FS.removeFile (fs : FS) (n : String) : FS :=
  { fs with files := fs.files.filter (fun f => !(f.1 == n)) }

/-- Write a file (`open(n, "w")` then `write`): overwrite semantics. -/
def FS.writeFile (fs : FS) (n c : String) : FS :=
  { fs with files := (n, c) :: fs.files.filter (fun f => !(f.1 == n)) }

/-- Whitespace as recognized by Python `str.strip` (ASCII part). -/
def isSpaceChar (c : Char) : Bool :=
  c == ' ' || c == '\t' || c == '\n' || c == '\r' || c == '\x0b' || c == '\x0c'

/-- Model of the Python `str.strip()` method: drop whitespace from both ends. -/
def pyStrip (s : String) : String :=
  String.mk (((s.data.dropWhile isSpaceChar).reverse.dropWhile isSpaceChar).reverse)

/-- ASCII lowering of one character (the inputs the tool compares are ASCII). -/
def lowerChar (c : Char) : Char :=
  if 'A' ≤ c ∧ c ≤ 'Z' then Char.ofNat (c.toNat + 32) else c

/-- Model of the Python `str.lower()` method on the ASCII inputs the tool compares. -/
def pyLower (s : String) : String :=
  String.mk (s.data.map lowerChar)

/-- Digits to a natural number, most significant first. -/
def digitsToNat (l : List Char) : Nat :=
  l.foldl (fun acc c => acc * 10 + (c.toNat - 48)) 0

/-- Model of the Python `int(s)` conversion on an already-stripped string: an optional
sign followed by at least one decimal digit; anything else raises
`ValueError`, modelled as `none`. -/
def pyInt? (s : String) : Option Int :=
  match s.data with
  | [] => none
  | c :: cs =>
    if c == '-' then
      if !cs.isEmpty && cs.all Char.isDigit then some (-(digitsToNat cs : Int)) else none
    else if c == '+' then
      if !cs.isEmpty && cs.all Char.isDigit then some ((digitsToNat cs : Int)) else none
    else
      if (c :: cs).all Char.isDigit then some ((digitsToNat (c :: cs) : Int)) else none

/-- One entry of the `brand_entries` of a console: a brand name together with the
brand-specific display name. -/
structure BrandEntry where
  brand : String
  display_name : String
deriving DecidableEq, Repr

/-- A console record from the catalog. -/
structure Console where
  real_name : String
  display_name : String
  brand_entries : List BrandEntry
  extra_sources : List String
deriving DecidableEq, Repr

/-- The parsed `consoles.json` document, with the two top-level keys the
loader reads (`none` = key absent, which raises `KeyError`). -/
structure RawConfig where
  consolesKey : Option (List Console)
  brandsKey : Option (List String)

/-- The possible outcomes of reading and JSON-decoding `consoles.json`:
the file is absent (`FileNotFoundError`), its content is malformed
(`json.JSONDecodeError`, carrying the decoder message), or it parsed. -/
inductive LoadInput where
  | absent
  | malformed (e : String)
  | parsed (cfg : RawConfig)

/-- The three configuration-error classes `load_configuration` distinguishes. -/
inductive ConfigError where
  | fileNotFound
  | jsonError (e : String)
  | invalidStructure (key : String)
deriving DecidableEq, Repr

/-- The user-facing message printed for each configuration error
(`Messages.get_errors`, terminal colors and emoji prefixes elided). -/
def ConfigError.render : ConfigError → String
  | ConfigError.fileNotFound =>
      "consoles.json file not found! / Arquivo consoles.json nao encontrado!"
  | ConfigError.jsonError e => "Error reading consoles.json: " ++ e
  | ConfigError.invalidStructure k => "Invalid structure in consoles.json: " ++ k

/-- `ConfigManager.load_configuration`: read the JSON document and extract
`config["consoles"]` and `config["brands"]` (in that order); each failure
mode maps to its own `ConfigError`. -/
def load_configuration : LoadInput → Except ConfigError (List Console × List String)
  | LoadInput.absent => Except.error ConfigError.fileNotFound
  | LoadInput.malformed e => Except.error (ConfigError.jsonError e)
  | LoadInput.parsed cfg =>
    match cfg.consolesKey with
    | none => Except.error (ConfigError.invalidStructure "consoles")
    | some cs =>
      match cfg.brandsKey with
      | none => Except.error (ConfigError.invalidStructure "brands")
      | some bs => Except.ok (cs, bs)

/-- Outcomes of the best-effort file operations: whether `os.remove` of a
given name succeeds, whether `shutil.rmtree("BMPs")` succeeds, and whether
opening a given name for writing succeeds. -/
structure FsEnv where
  removeOk : String → Bool
  rmtreeOk : Bool
  writeOk : String → Bool

/-- Environment for the copy stage: which source paths exist
(`os.path.exists`), whether a recursive copy of a given source raises
(`copyOk`), and what files/directories the copy merges into the working
directory (`copyEffect`, abstracting the contents of the source trees). -/
structure CopyEnv where
  pathExists : String → Bool
  copyOk : String → Bool
  copyEffect : String → FS → FS

/-- The fixed cleanup glob patterns of `clean_destination_directory`. -/
def cleanupPatterns : List String :=
  ["*.dtb", "*.ini", "*.orig", "*.tony", ".cn", ".en", ".br"]

/-- Glob matching for the patterns the tool uses: `*.suffix` matches any
non-hidden name with that suffix (the glob `*` skips names starting with a
dot); a literal pattern matches exactly itself. -/
def matchesPattern (pat name : String) : Bool :=
  match pat.data with
  | '*' :: suffix =>
      List.isSuffixOf suffix name.data && !(name.data.head? == some '.')
  | _ => name == pat

/-- Process one cleanup pattern: delete every matching file whose removal
succeeds (failed removals are warned about and the file stays). Directories
matched by a glob make `os.remove` raise, so they are left in place. -/
def clean_pattern (fe : FsEnv) (fs : FS) (pat : String) : FS :=
  { fs with files := fs.files.filter (fun f => !(matchesPattern pat f.1 && fe.removeOk f.1)) }

/-- The pattern-deletion loop of `clean_destination_directory`. -/
def clean_files (fe : FsEnv) (fs : FS) : FS :=
  cleanupPatterns.foldl (clean_pattern fe) fs

/-- `FileManager.clean_destination_directory`: best-effort deletion of every
file matching the fixed patterns, then best-effort removal of the `BMPs`
directory. Never fails the run. -/
def clean_destination_directory (fe : FsEnv) (fs : FS) : FS :=
  if (clean_files fe fs).dirs.contains "BMPs" then
    if fe.rmtreeOk then
      { clean_files fe fs with
          dirs := (clean_files fe fs).dirs.filter (fun d => !(d == "BMPs")) }
    else clean_files fe fs
  else clean_files fe fs

/-- `FileManager.recursive_copy source "."`: returns `false` when the source
does not exist or the copy raises; the filesystem effect of the (possibly
partial) copy is abstracted by the environment. -/
def recursive_copy (ce : CopyEnv) (source : String) (fs : FS) : Bool × FS :=
  if ce.pathExists source then (ce.copyOk source, ce.copyEffect source fs)
  else (false, fs)

/-- `FileManager.copy_console`: copy `consoles/<real_name>` into the working
directory (fatal if the directory is missing or the copy fails), then copy
each extra resource best-effort (missing or failing extras only warn). -/
def copy_console (ce : CopyEnv) (c : Console) (fs : FS) : Bool × FS :=
  if ce.pathExists ("consoles/" ++ c.real_name) then
    match recursive_copy ce ("consoles/" ++ c.real_name) fs with
    | (false, fs1) => (false, fs1)
    | (true, fs1) =>
      (true, c.extra_sources.foldl (fun acc r =>
          if ce.pathExists ("consoles/" ++ r) then (recursive_copy ce ("consoles/" ++ r) acc).2
          else acc) fs1)
  else (false, fs)

/-- The known language marker filenames, in the order `apply_language`
deletes them. -/
def languageFiles : List String := [".cn", ".br", ".en"]

/-- One deletion step of `apply_language`: remove the marker if it exists
and the removal succeeds (failures only warn). -/
def remove_marker (fe : FsEnv) (fs : FS) (lf : String) : FS :=
  if fs.hasFile lf && fe.removeOk lf then fs.removeFile lf else fs

/-- `MenuManager.apply_language`: delete every known marker filename, then
create the marker matching the chosen language (`.cn` containing "chinese",
`.br` containing "portugues_brasil", nothing for English). A failed write
only warns. -/
def apply_language (fe : FsEnv) (language : String) (fs : FS) : FS :=
  let fs1 := languageFiles.foldl (remove_marker fe) fs
  if language == "en" then fs1
  else if language == "cn" then
    if fe.writeOk ".cn" then fs1.writeFile ".cn" "chinese" else fs1
  else if language == "br" then
    if fe.writeOk ".br" then fs1.writeFile ".br" "portugues_brasil" else fs1
  else fs1

/-- Result of one menu interaction: the input list was exhausted (end of
file, which the tool treats as user cancellation and a clean exit), or the
menu returned a result together with the unconsumed inputs. -/
inductive MenuOut (α : Type) where
  | eof
  | done (res : Option α) (rest : List String)
deriving DecidableEq, Repr

/-- `MenuManager.brand_menu`: loop reading an input; empty re-prompts, a
non-numeric or out-of-range input warns and calls `wait_for_enter` (which
reads and discards one more input — modelled by the `awaiting` flag being
set for the next step); `0` returns no selection; a valid index returns the
brand. -/
def brand_menu_go (brands : List String) : Bool → List String → MenuOut String
  | _, [] => MenuOut.eof
  | true, _ :: rest => brand_menu_go brands false rest
  | false, choice :: rest =>
    if pyStrip choice == "" then brand_menu_go brands false rest
    else
      match pyInt? (pyStrip choice) with
      | some n =>
        if n == 0 then MenuOut.done none rest
        else if 1 ≤ n ∧ n ≤ (brands.length : Int) then
          MenuOut.done (some (brands.getD (n - 1).toNat "")) rest
        else brand_menu_go brands true rest
      | none => brand_menu_go brands true rest

/-- The brand menu, entered in the normal (not awaiting Enter) state. -/
def brand_menu_loop (brands : List String) (inputs : List String) : MenuOut String :=
  brand_menu_go brands false inputs

/-- The filtered console list `brand_consoles` built at the top of
`console_menu`: for every console, for every brand entry whose `brand`
equals the selected brand, append the pair (console record, brand-specific
display name). Translated from the nested `for` loops of the source. -/
def brand_consoles (consoles : List Console) (selected_brand : String) : List (Console × String) :=
  consoles.foldl (fun acc console =>
    console.brand_entries.foldl (fun acc2 entry =>
      if entry.brand == selected_brand then acc2 ++ [(console, entry.display_name)] else acc2)
      acc) []

/-- Modelled from the spec: the console menu is to collect, in catalog
order, a pair `(console_record, display_name)` for each `brand_entries`
element whose `brand` field equals the chosen brand. Stated with
`filter`/`map`/`join` and compared against the source translation
`brand_consoles`. -/
def brand_consoles_spec (consoles : List Console) (selected_brand : String) :
    List (Console × String) :=
  (consoles.map (fun c =>
    (c.brand_entries.filter (fun e => e.brand == selected_brand)).map
      (fun e => (c, e.display_name)))).flatten

/-- The selection loop of `console_menu`, over the pre-filtered list:
empty input re-prompts, invalid input warns and waits for Enter (one extra
input consumed, modelled by the `awaiting` flag), `0` returns no selection,
and a valid index returns a copy of the console record with `display_name`
replaced by the brand-specific one. -/
def console_menu_go (bcs : List (Console × String)) : Bool → List String → MenuOut Console
  | _, [] => MenuOut.eof
  | true, _ :: rest => console_menu_go bcs false rest
  | false, choice :: rest =>
    if pyStrip choice == "" then console_menu_go bcs false rest
    else
      match pyInt? (pyStrip choice) with
      | some n =>
        if n == 0 then MenuOut.done none rest
        else if 1 ≤ n ∧ n ≤ (bcs.length : Int) then
          MenuOut.done
            (some { (bcs.getD (n - 1).toNat (⟨"", "", [], []⟩, "")).1 with
                      display_name := (bcs.getD (n - 1).toNat (⟨"", "", [], []⟩, "")).2 })
            rest
        else console_menu_go bcs true rest
      | none => console_menu_go bcs true rest

/-- The console selection loop, entered in the normal state. -/
def console_menu_loop (bcs : List (Console × String)) (inputs : List String) :
    MenuOut Console :=
  console_menu_go bcs false inputs

/-- `MenuManager.console_menu`: filter the catalog by brand; when nothing
matches, report "No consoles found", wait for Enter (consuming one input)
and return no selection; otherwise run the selection loop. -/
def console_menu (consoles : List Console) (selected_brand : String)
    (inputs : List String) : MenuOut Console :=
  if (brand_consoles consoles selected_brand).isEmpty then
    match inputs with
    | [] => MenuOut.eof
    | _ :: rest => MenuOut.done none rest
  else console_menu_loop (brand_consoles consoles selected_brand) inputs

/-- `MenuManager.language_menu`: unlike the other menus, an empty input
returns no selection immediately; `0` also returns no selection; `1`/`2`/`3`
return "en"/"cn"/"br"; anything else warns, waits for Enter (one extra
input consumed, modelled by the `awaiting` flag) and re-prompts. -/
def language_menu_go : Bool → List String → MenuOut String
  | _, [] => MenuOut.eof
  | true, _ :: rest => language_menu_go false rest
  | false, choice :: rest =>
    if pyStrip choice == "" then MenuOut.done none rest
    else
      match pyInt? (pyStrip choice) with
      | some n =>
        if n == 0 then MenuOut.done none rest
        else if n == 1 then MenuOut.done (some "en") rest
        else if n == 2 then MenuOut.done (some "cn") rest
        else if n == 3 then MenuOut.done (some "br") rest
        else language_menu_go true rest
      | none => language_menu_go true rest

/-- The language menu, entered in the normal state. -/
def language_menu (inputs : List String) : MenuOut String :=
  language_menu_go false inputs

/-- The affirmative confirmation tokens of `main`. -/
def affirmatives : List String := ["s", "sim", "y", "yes"]

/-- High-level events of one run, used to state which stages executed. -/
inductive Ev where
  | menuBrand
  | menuConsole
  | menuLanguage
  | cleanupStage
  | copyStage
  | applyLangEv (lang : String)
deriving DecidableEq, Repr

/-- The observable outcome of one run of `main`: process exit code, final
working directory, the stages reached (in order), and the fatal
configuration message when loading failed. -/
structure RunResult where
  exitCode : Nat
  fs : FS
  trace : List Ev
  errMsg : Option String
deriving DecidableEq, Repr

/-- `main`: load the catalog (fatal errors exit 1 before any menu), show the
introduction (input `q` exits), run the brand menu (no selection or a falsy
brand cancels), the console menu (no selection cancels), ask for
confirmation (only the affirmative tokens proceed), then clean, copy
(failure aborts), run the language menu and apply an explicit choice.
Running out of input models end-of-file, a clean exit with code 0. -/
def run (load : LoadInput) (fe : FsEnv) (ce : CopyEnv) (inputs : List String)
    (fs0 : FS) : RunResult :=
  match load_configuration load with
  | Except.error e => { exitCode := 1, fs := fs0, trace := [], errMsg := some e.render }
  | Except.ok (consoles, brands) =>
    match inputs with
    | [] => { exitCode := 0, fs := fs0, trace := [], errMsg := none }
    | i0 :: r1 =>
      if pyLower (pyStrip i0) == "q" then
        { exitCode := 0, fs := fs0, trace := [], errMsg := none }
      else
        match brand_menu_loop brands r1 with
        | MenuOut.eof =>
            { exitCode := 0, fs := fs0, trace := [Ev.menuBrand], errMsg := none }
        | MenuOut.done none _ =>
            { exitCode := 0, fs := fs0, trace := [Ev.menuBrand], errMsg := none }
        | MenuOut.done (some b) r2 =>
          if b == "" then
            { exitCode := 0, fs := fs0, trace := [Ev.menuBrand], errMsg := none }
          else
            match console_menu consoles b r2 with
            | MenuOut.eof =>
                { exitCode := 0, fs := fs0, trace := [Ev.menuBrand, Ev.menuConsole],
                  errMsg := none }
            | MenuOut.done none _ =>
                { exitCode := 0, fs := fs0, trace := [Ev.menuBrand, Ev.menuConsole],
                  errMsg := none }
            | MenuOut.done (some console) r3 =>
              match r3 with
              | [] =>
                  { exitCode := 0, fs := fs0, trace := [Ev.menuBrand, Ev.menuConsole],
                    errMsg := none }
              | ci :: r4 =>
                if affirmatives.contains (pyLower (pyStrip (pyStrip ci))) then
                  if (copy_console ce console (clean_destination_directory fe fs0)).1 then
                    match language_menu r4 with
                    | MenuOut.eof =>
                        { exitCode := 0,
                          fs := (copy_console ce console (clean_destination_directory fe fs0)).2,
                          trace := [Ev.menuBrand, Ev.menuConsole, Ev.cleanupStage,
                                    Ev.copyStage, Ev.menuLanguage],
                          errMsg := none }
                    | MenuOut.done none _ =>
                        { exitCode := 0,
                          fs := (copy_console ce console (clean_destination_directory fe fs0)).2,
                          trace := [Ev.menuBrand, Ev.menuConsole, Ev.cleanupStage,
                                    Ev.copyStage, Ev.menuLanguage],
                          errMsg := none }
                    | MenuOut.done (some lang) _ =>
                        { exitCode := 0,
                          fs := apply_language fe lang
                                  (copy_console ce console
                                    (clean_destination_directory fe fs0)).2,
                          trace := [Ev.menuBrand, Ev.menuConsole, Ev.cleanupStage,
                                    Ev.copyStage, Ev.menuLanguage, Ev.applyLangEv lang],
                          errMsg := none }
                  else
                    { exitCode := 0,
                      fs := (copy_console ce console (clean_destination_directory fe fs0)).2,
                      trace := [Ev.menuBrand, Ev.menuConsole, Ev.cleanupStage, Ev.copyStage],
                      errMsg := none }
                else
                  { exitCode := 0, fs := fs0, trace := [Ev.menuBrand, Ev.menuConsole],
                    errMsg := none }

/-! ## Helper lemmas about the filesystem model -/

/-- Filtering by a predicate on the file name commutes with the existence
check: a file named `n` survives the filter exactly when `q n` holds. -/
theorem any_filter_name (q : String → Bool) (n : String) :
    ∀ l : List (String × String),
      ((l.filter (fun f => q f.1)).any (fun f => f.1 == n))
        = (l.any (fun f => f.1 == n) && q n)
  | [] => by simp
  | f :: t => by
    by_cases hn : f.1 = n
    · subst hn
      cases hq : q f.1 <;>
        simp [List.filter_cons, hq, any_filter_name q f.1 t]
    · have hb : (f.1 == n) = false := by simp [hn]
      cases hq : q f.1 <;>
        simp [List.filter_cons, hq, hb, any_filter_name q n t]

theorem hasFile_removeFile (fs : FS) (n m : String) :
    (fs.removeFile n).hasFile m = (fs.hasFile m && !(m == n)) := by
  simpa [FS.removeFile, FS.hasFile] using
    any_filter_name (fun x => !(x == n)) m fs.files

theorem hasFile_writeFile (fs : FS) (n c m : String) :
    (fs.writeFile n c).hasFile m = (m == n || fs.hasFile m) := by
  have h := any_filter_name (fun x => !(x == n)) m fs.files
  by_cases hm : m = n
  · subst hm; simp [FS.writeFile, FS.hasFile]
  · have hb : (m == n) = false := by simp [hm]
    have hb2 : (n == m) = false := beq_eq_false_iff_ne.mpr (fun hx => hm hx.symm)
    simp [FS.writeFile, FS.hasFile, List.any_cons, hb2, hb, h]

theorem removeFile_eq_self (fs : FS) (n : String) (h : fs.hasFile n = false) :
    fs.removeFile n = fs := by
  have hall : ∀ a ∈ fs.files, (!(a.1 == n)) = true := by
    intro a ha
    simp only [FS.hasFile, List.any_eq_false] at h
    simpa using h a ha
  simp [FS.removeFile, List.filter_eq_self.mpr hall]

theorem removeFile_writeFile (fs : FS) (n c : String) :
    (fs.writeFile n c).removeFile n = fs.removeFile n := by
  simp [FS.writeFile, FS.removeFile, List.filter_cons, List.filter_filter]

/-! ## Helper lemmas about the language-marker operations -/

theorem hasFile_remove_marker (fe : FsEnv) (fs : FS) (lf m : String)
    (h : fe.removeOk lf = true) :
    (remove_marker fe fs lf).hasFile m = (fs.hasFile m && !(m == lf)) := by
  unfold remove_marker
  rw [h]
  cases hf : fs.hasFile lf
  · by_cases hm : m = lf
    · subst hm; simp [hf]
    · simp [hm]
  · simp [hasFile_removeFile]

theorem remove_marker_eq_self (fe : FsEnv) (fs : FS) (lf : String)
    (h : fs.hasFile lf = false) :
    remove_marker fe fs lf = fs := by
  simp [remove_marker, h]

/-- After the deletion loop of `apply_language` (all removals succeeding),
a file exists iff it existed before and is not a known marker name. -/
theorem hasFile_fold_markers (fe : FsEnv) (fs : FS) (m : String)
    (hcn : fe.removeOk ".cn" = true) (hbr : fe.removeOk ".br" = true)
    (hen : fe.removeOk ".en" = true) :
    ((languageFiles.foldl (remove_marker fe) fs).hasFile m)
      = (fs.hasFile m && !(m == ".cn") && !(m == ".br") && !(m == ".en")) := by
  simp only [languageFiles, List.foldl_cons, List.foldl_nil]
  rw [hasFile_remove_marker fe _ _ _ hen, hasFile_remove_marker fe _ _ _ hbr,
      hasFile_remove_marker fe _ _ _ hcn]

/-- C2: After `apply_language` runs for a chosen language in {en, cn, br},
with the individual deletions and the file creation succeeding, at most one
of `.cn`/`.br` exists: all known markers (`.cn`, `.br`, `.en`) are deleted
first, then exactly the marker matching the chosen language is created, and
no file is created for English. -/
theorem apply_language_single_marker (fe : FsEnv) (fs : FS) (lang : String)
    (hcn : fe.removeOk ".cn" = true) (hbr : fe.removeOk ".br" = true)
    (hen : fe.removeOk ".en" = true)
    (hwc : fe.writeOk ".cn" = true) (hwb : fe.writeOk ".br" = true)
    (hl : lang = "en" ∨ lang = "cn" ∨ lang = "br") :
    ((apply_language fe lang fs).hasFile ".cn"
        && (apply_language fe lang fs).hasFile ".br") = false
    ∧ (apply_language fe lang fs).hasFile ".cn" = decide (lang = "cn")
    ∧ (apply_language fe lang fs).hasFile ".br" = decide (lang = "br")
    ∧ (apply_language fe lang fs).hasFile ".en" = false := by
  have hfold := hasFile_fold_markers fe fs
  rcases hl with h | h | h <;> subst h <;>
    simp +decide [apply_language, hwc, hwb, hasFile_writeFile,
      hasFile_fold_markers fe fs _ hcn hbr hen]

/-- C2 witness: a concrete instance of the invariant. -/
theorem apply_language_single_marker_witness :
    ((apply_language ⟨fun _ => true, true, fun _ => true⟩ "cn" ⟨[(".br", "x")], []⟩).hasFile ".cn"
        && (apply_language ⟨fun _ => true, true, fun _ => true⟩ "cn"
              ⟨[(".br", "x")], []⟩).hasFile ".br") = false
    ∧ (apply_language ⟨fun _ => true, true, fun _ => true⟩ "cn"
          ⟨[(".br", "x")], []⟩).hasFile ".cn" = decide (("cn" : String) = "cn")
    ∧ (apply_language ⟨fun _ => true, true, fun _ => true⟩ "cn"
          ⟨[(".br", "x")], []⟩).hasFile ".br" = decide (("cn" : String) = "br")
    ∧ (apply_language ⟨fun _ => true, true, fun _ => true⟩ "cn"
          ⟨[(".br", "x")], []⟩).hasFile ".en" = false :=
  apply_language_single_marker ⟨fun _ => true, true, fun _ => true⟩ ⟨[(".br", "x")], []⟩ "cn"
    rfl rfl rfl rfl rfl (Or.inr (Or.inl rfl))

/-- Deleting a marker that was just (re)written takes the directory back to
the state before the write, when the marker did not exist there. -/
theorem remove_marker_write_self (fe : FsEnv) (A : FS) (n c : String)
    (hok : fe.removeOk n = true) (hA : A.hasFile n = false) :
    remove_marker fe (A.writeFile n c) n = A := by
  have hc : (A.writeFile n c).hasFile n = true := by rw [hasFile_writeFile]; simp
  simp only [remove_marker]
  rw [hc, hok]
  simp [removeFile_writeFile, removeFile_eq_self _ _ hA]

/-- The deletion step for a marker other than the one just written is a
no-op when that other marker is absent. -/
theorem remove_marker_write_other (fe : FsEnv) (A : FS) (n c m : String)
    (hmn : (m == n) = false) (hA : A.hasFile m = false) :
    remove_marker fe (A.writeFile n c) m = A.writeFile n c := by
  apply remove_marker_eq_self
  rw [hasFile_writeFile, hA, hmn]
  rfl

/-- The deletion loop of `apply_language`, written out step by step. -/
theorem fold_markers_expand (fe : FsEnv) (X : FS) :
    languageFiles.foldl (remove_marker fe) X
      = remove_marker fe (remove_marker fe (remove_marker fe X ".cn") ".br") ".en" := rfl

/-- If none of the markers exist, the deletion loop changes nothing. -/
theorem fold_markers_eq_self (fe : FsEnv) (fs : FS)
    (h1 : fs.hasFile ".cn" = false) (h2 : fs.hasFile ".br" = false)
    (h3 : fs.hasFile ".en" = false) :
    languageFiles.foldl (remove_marker fe) fs = fs := by
  rw [fold_markers_expand fe fs, remove_marker_eq_self fe fs _ h1,
      remove_marker_eq_self fe fs _ h2, remove_marker_eq_self fe fs _ h3]

/-- C7: `apply_language` is idempotent — applying the same language twice in
a row (all file operations succeeding) leaves the working directory in
exactly the state one application produces. -/
theorem apply_language_idempotent (fe : FsEnv) (fs : FS) (lang : String)
    (hcn : fe.removeOk ".cn" = true) (hbr : fe.removeOk ".br" = true)
    (hen : fe.removeOk ".en" = true)
    (hwc : fe.writeOk ".cn" = true) (hwb : fe.writeOk ".br" = true)
    (hl : lang = "en" ∨ lang = "cn" ∨ lang = "br") :
    apply_language fe lang (apply_language fe lang fs) = apply_language fe lang fs := by
  have hAcn : ((languageFiles.foldl (remove_marker fe) fs).hasFile ".cn") = false := by
    rw [hasFile_fold_markers fe fs _ hcn hbr hen]; simp
  have hAbr : ((languageFiles.foldl (remove_marker fe) fs).hasFile ".br") = false := by
    rw [hasFile_fold_markers fe fs _ hcn hbr hen]; simp
  have hAen : ((languageFiles.foldl (remove_marker fe) fs).hasFile ".en") = false := by
    rw [hasFile_fold_markers fe fs _ hcn hbr hen]; simp
  rcases hl with h | h | h <;> subst h
  · have honce : apply_language fe "en" fs = languageFiles.foldl (remove_marker fe) fs := by
      simp [apply_language]
    rw [honce]
    simp [apply_language, fold_markers_eq_self fe _ hAcn hAbr hAen]
  · have honce : apply_language fe "cn" fs
        = (languageFiles.foldl (remove_marker fe) fs).writeFile ".cn" "chinese" := by
      simp [apply_language, hwc]
    rw [honce]
    have hfold : languageFiles.foldl (remove_marker fe)
        ((languageFiles.foldl (remove_marker fe) fs).writeFile ".cn" "chinese")
        = languageFiles.foldl (remove_marker fe) fs := by
      rw [fold_markers_expand fe ((languageFiles.foldl (remove_marker fe) fs).writeFile
            ".cn" "chinese")]
      rw [remove_marker_write_self fe _ ".cn" "chinese" hcn hAcn]
      rw [remove_marker_eq_self fe _ _ hAbr, remove_marker_eq_self fe _ _ hAen]
    simp [apply_language, hwc, hfold]
  · have honce : apply_language fe "br" fs
        = (languageFiles.foldl (remove_marker fe) fs).writeFile ".br" "portugues_brasil" := by
      simp [apply_language, hwb]
    rw [honce]
    have hfold : languageFiles.foldl (remove_marker fe)
        ((languageFiles.foldl (remove_marker fe) fs).writeFile ".br" "portugues_brasil")
        = languageFiles.foldl (remove_marker fe) fs := by
      rw [fold_markers_expand fe ((languageFiles.foldl (remove_marker fe) fs).writeFile
            ".br" "portugues_brasil")]
      rw [remove_marker_write_other fe _ ".br" "portugues_brasil" ".cn" (by decide) hAcn]
      rw [remove_marker_write_self fe _ ".br" "portugues_brasil" hbr hAbr]
      rw [remove_marker_eq_self fe _ _ hAen]
    simp [apply_language, hwb, hfold]

/-- C7 witness: applying "br" twice on a concrete directory equals applying
it once. -/
theorem apply_language_idempotent_witness :
    apply_language ⟨fun _ => true, true, fun _ => true⟩ "br"
        (apply_language ⟨fun _ => true, true, fun _ => true⟩ "br" ⟨[(".cn", "chinese")], []⟩)
      = apply_language ⟨fun _ => true, true, fun _ => true⟩ "br" ⟨[(".cn", "chinese")], []⟩ :=
  apply_language_idempotent ⟨fun _ => true, true, fun _ => true⟩ ⟨[(".cn", "chinese")], []⟩ "br"
    rfl rfl rfl rfl rfl (Or.inr (Or.inr rfl))

/-! ## Copy stage: success condition -/

/-- C3: `copy_console` returns success iff the primary directory
`consoles/<real_name>` exists and its recursive copy succeeds; the result
does not depend on the extra resources at all (any environment agreeing on
the primary path gives the same result), so a missing or failing
extra-resource copy never turns success into failure. -/
theorem copy_console_success_iff (ce : CopyEnv) (c : Console) (fs : FS) :
    ((copy_console ce c fs).1
        = (ce.pathExists ("consoles/" ++ c.real_name)
            && ce.copyOk ("consoles/" ++ c.real_name)))
    ∧ (∀ (ce2 : CopyEnv) (fs2 : FS),
        ce2.pathExists ("consoles/" ++ c.real_name)
            = ce.pathExists ("consoles/" ++ c.real_name) →
        ce2.copyOk ("consoles/" ++ c.real_name) = ce.copyOk ("consoles/" ++ c.real_name) →
        (copy_console ce2 c fs2).1 = (copy_console ce c fs).1) := by
  have key : ∀ (ce0 : CopyEnv) (fs0 : FS),
      (copy_console ce0 c fs0).1
        = (ce0.pathExists ("consoles/" ++ c.real_name)
            && ce0.copyOk ("consoles/" ++ c.real_name)) := by
    intro ce0 fs0
    unfold copy_console recursive_copy
    cases hp : ce0.pathExists ("consoles/" ++ c.real_name) <;> simp [hp]
    cases hc : ce0.copyOk ("consoles/" ++ c.real_name) <;> simp [hc]
  refine ⟨key ce fs, ?_⟩
  intro ce2 fs2 h1 h2
  rw [key ce2 fs2, key ce fs, h1, h2]

/-- C3 witness: a concrete agreement instance. -/
theorem copy_console_success_iff_witness :
    ((copy_console ⟨fun _ => true, fun _ => true, fun _ fs => fs⟩ ⟨"x", "X", [], ["bios"]⟩
          ⟨[], []⟩).1
        = ((fun (_ : String) => true) ("consoles/" ++ "x")
            && (fun (_ : String) => true) ("consoles/" ++ "x")))
    ∧ (copy_console ⟨fun _ => true, fun p => p == "consoles/x", fun _ fs => fs⟩
          ⟨"x", "X", [], ["bios"]⟩ ⟨[("a.dtb", "d")], []⟩).1
        = (copy_console ⟨fun _ => true, fun _ => true, fun _ fs => fs⟩ ⟨"x", "X", [], ["bios"]⟩
          ⟨[], []⟩).1 := by
  have h := copy_console_success_iff ⟨fun _ => true, fun _ => true, fun _ fs => fs⟩
    ⟨"x", "X", [], ["bios"]⟩ ⟨[], []⟩
  exact ⟨h.1, h.2 ⟨fun _ => true, fun p => p == "consoles/x", fun _ fs => fs⟩
    ⟨[("a.dtb", "d")], []⟩ rfl (by decide)⟩

/-! ## Console menu: filtering and annotated selection -/

/-- The inner loop over the brand entries of one console, related to
filter-and-map form. -/
theorem inner_fold_eq (b : String) (c : Console) :
    ∀ (entries : List BrandEntry) (acc : List (Console × String)),
      entries.foldl (fun acc2 entry =>
          if entry.brand == b then acc2 ++ [(c, entry.display_name)] else acc2) acc
        = acc ++ (entries.filter (fun e => e.brand == b)).map (fun e => (c, e.display_name))
  | [], acc => by simp
  | e :: t, acc => by
    by_cases he : e.brand = b
    · rw [List.foldl_cons, if_pos (show (e.brand == b) = true by simp [he]),
          inner_fold_eq b c t]
      simp [List.filter_cons, he]
    · rw [List.foldl_cons, if_neg (show ¬ ((e.brand == b) = true) by simp [he]),
          inner_fold_eq b c t]
      simp [List.filter_cons, he]

/-- The outer loop over the catalog, related to the specification form. -/
theorem outer_fold_eq (b : String) :
    ∀ (consoles : List Console) (acc : List (Console × String)),
      consoles.foldl (fun acc console =>
          console.brand_entries.foldl (fun acc2 entry =>
            if entry.brand == b then acc2 ++ [(console, entry.display_name)] else acc2) acc)
          acc
        = acc ++ brand_consoles_spec consoles b
  | [], acc => by simp [brand_consoles_spec]
  | c :: t, acc => by
    simp only [List.foldl_cons]
    rw [inner_fold_eq b c c.brand_entries acc, outer_fold_eq b t _]
    simp [brand_consoles_spec, List.append_assoc]

/-- C6: the filtered list of the console menu collects, in catalog order, a pair
(console record, display name) for each brand entry matching the chosen
brand; and when the filtered list is empty, the menu reports and returns no
selection to the caller (consuming the one wait-for-Enter input). -/
theorem console_menu_filter (cs : List Console) (b : String) :
    brand_consoles cs b = brand_consoles_spec cs b
    ∧ (brand_consoles cs b = [] →
        (∀ (i : String) (rest : List String),
            console_menu cs b (i :: rest) = MenuOut.done none rest)
        ∧ console_menu cs b [] = MenuOut.eof) := by
  constructor
  · simpa [brand_consoles] using outer_fold_eq b cs []
  · intro h
    exact ⟨fun i rest => by simp [console_menu, h], by simp [console_menu, h]⟩

/-- C6 witness: a brand with no matching entries yields the empty list and
a no-selection return. -/
theorem console_menu_filter_witness :
    brand_consoles [⟨"x", "X", [⟨"A", "XA"⟩], []⟩] "B"
        = brand_consoles_spec [⟨"x", "X", [⟨"A", "XA"⟩], []⟩] "B"
    ∧ console_menu [⟨"x", "X", [⟨"A", "XA"⟩], []⟩] "B" ["7"] = MenuOut.done none [] := by
  have h := console_menu_filter [⟨"x", "X", [⟨"A", "XA"⟩], []⟩] "B"
  exact ⟨h.1, (h.2 (by decide)).1 "7" []⟩

/-- C9: selecting console number `n` returns a record whose `real_name`,
`brand_entries` and `extra_sources` are those of the catalog record and
whose `display_name` is the brand-specific display name of the matching
entry — a fresh annotated copy, leaving the own record of the catalog (including
its original `display_name`) untouched. -/
theorem console_selection_annotated_copy (cs : List Console) (b : String)
    (s : String) (rest : List String) (n : Int)
    (hs : pyInt? (pyStrip s) = some n) (h1 : 1 ≤ n)
    (h2 : n ≤ ((brand_consoles cs b).length : Int)) :
    console_menu cs b (s :: rest)
      = MenuOut.done
          (some (Console.mk
            ((brand_consoles cs b).getD (n - 1).toNat (⟨"", "", [], []⟩, "")).1.real_name
            ((brand_consoles cs b).getD (n - 1).toNat (⟨"", "", [], []⟩, "")).2
            ((brand_consoles cs b).getD (n - 1).toNat (⟨"", "", [], []⟩, "")).1.brand_entries
            ((brand_consoles cs b).getD (n - 1).toNat (⟨"", "", [], []⟩, "")).1.extra_sources))
          rest := by
  have hne : (brand_consoles cs b).isEmpty = false := by
    cases hl : brand_consoles cs b with
    | nil =>
        rw [hl] at h2
        simp at h2
        omega
    | cons a t => simp
  have hstrip : ¬ (pyStrip s = "") := by
    intro hx
    rw [hx, show pyInt? "" = none from rfl] at hs
    exact Option.noConfusion hs
  have hstripb : (pyStrip s == "") = false := beq_eq_false_iff_ne.mpr hstrip
  have hn0 : (n == 0) = false := by
    have hx : ¬ (n = 0) := by omega
    exact beq_eq_false_iff_ne.mpr hx
  have h12 : 1 ≤ n ∧ n ≤ ((brand_consoles cs b).length : Int) := ⟨h1, h2⟩
  simp only [console_menu, console_menu_loop]
  rw [console_menu_go]
  simp [hne, hstripb, hs, hn0, h12]

/-- C9 witness: a concrete selection where the catalog display name and the
display name of the brand entry differ. -/
theorem console_selection_annotated_copy_witness :
    console_menu [⟨"x", "Generic", [⟨"A", "XA"⟩], ["bios"]⟩] "A" ["1"]
      = MenuOut.done (some (Console.mk "x" "XA" [⟨"A", "XA"⟩] ["bios"])) [] := by
  have h := console_selection_annotated_copy [⟨"x", "Generic", [⟨"A", "XA"⟩], ["bios"]⟩] "A"
    "1" [] 1 (by decide) (by decide) (by decide)
  simpa using h

/-! ## Cleanup stage lemmas -/

theorem hasFile_clean_pattern (fe : FsEnv) (fs : FS) (pat n : String) :
    (clean_pattern fe fs pat).hasFile n
      = (fs.hasFile n && !(matchesPattern pat n && fe.removeOk n)) := by
  simpa [clean_pattern, FS.hasFile] using
    any_filter_name (fun x => !(matchesPattern pat x && fe.removeOk x)) n fs.files

/-- The cleanup pattern loop, written out step by step. -/
theorem clean_files_expand (fe : FsEnv) (fs : FS) :
    clean_files fe fs
      = clean_pattern fe (clean_pattern fe (clean_pattern fe (clean_pattern fe
          (clean_pattern fe (clean_pattern fe (clean_pattern fe fs "*.dtb") "*.ini")
            "*.orig") "*.tony") ".cn") ".en") ".br" := rfl

/-- Removing the `BMPs` directory does not change which files exist. -/
theorem hasFile_clean_destination (fe : FsEnv) (fs : FS) (n : String) :
    (clean_destination_directory fe fs).hasFile n = (clean_files fe fs).hasFile n := by
  unfold clean_destination_directory
  split
  · split
    · rfl
    · rfl
  · rfl

/-- The cleanup stage deletes the `.cn` marker (its pattern list contains
the marker filenames), provided the deletion succeeds. -/
theorem clean_destination_removes_cn (fe : FsEnv) (fs : FS)
    (h : fe.removeOk ".cn" = true) :
    (clean_destination_directory fe fs).hasFile ".cn" = false := by
  rw [hasFile_clean_destination, clean_files_expand]
  simp [hasFile_clean_pattern, h, show matchesPattern ".cn" ".cn" = true from by decide]

/-- The cleanup stage deletes the `.br` marker as well. -/
theorem clean_destination_removes_br (fe : FsEnv) (fs : FS)
    (h : fe.removeOk ".br" = true) :
    (clean_destination_directory fe fs).hasFile ".br" = false := by
  rw [hasFile_clean_destination, clean_files_expand]
  simp [hasFile_clean_pattern, h, show matchesPattern ".br" ".br" = true from by decide]

/-! ## Catalog loading: the three configuration error cases -/

theorem head_render_fileNotFound :
    (ConfigError.render ConfigError.fileNotFound).data.head? = some 'c' := rfl

theorem head_render_jsonError (e : String) :
    (ConfigError.render (ConfigError.jsonError e)).data.head? = some 'E' := by
  cases e with | mk l => rfl

theorem head_render_invalidStructure (k : String) :
    (ConfigError.render (ConfigError.invalidStructure k)).data.head? = some 'I' := by
  cases k with | mk l => rfl

/-- C4: loading the catalog distinguishes exactly the three failure cases —
file absent, malformed JSON, missing top-level key (`consoles` checked
first, then `brands`) — each terminating the run with exit code 1, a
distinct user-facing message, and no menu ever shown (empty trace). -/
theorem load_configuration_error_cases (fe : FsEnv) (ce : CopyEnv)
    (inputs : List String) (fs0 : FS) :
    ((run LoadInput.absent fe ce inputs fs0).exitCode = 1
      ∧ (run LoadInput.absent fe ce inputs fs0).trace = []
      ∧ (run LoadInput.absent fe ce inputs fs0).errMsg
          = some (ConfigError.render ConfigError.fileNotFound))
    ∧ (∀ e : String,
        (run (LoadInput.malformed e) fe ce inputs fs0).exitCode = 1
        ∧ (run (LoadInput.malformed e) fe ce inputs fs0).trace = []
        ∧ (run (LoadInput.malformed e) fe ce inputs fs0).errMsg
            = some (ConfigError.render (ConfigError.jsonError e)))
    ∧ (∀ cfg : RawConfig, cfg.consolesKey = none →
        (run (LoadInput.parsed cfg) fe ce inputs fs0).exitCode = 1
        ∧ (run (LoadInput.parsed cfg) fe ce inputs fs0).trace = []
        ∧ (run (LoadInput.parsed cfg) fe ce inputs fs0).errMsg
            = some (ConfigError.render (ConfigError.invalidStructure "consoles")))
    ∧ (∀ (cfg : RawConfig) (cs : List Console), cfg.consolesKey = some cs →
        cfg.brandsKey = none →
        (run (LoadInput.parsed cfg) fe ce inputs fs0).exitCode = 1
        ∧ (run (LoadInput.parsed cfg) fe ce inputs fs0).trace = []
        ∧ (run (LoadInput.parsed cfg) fe ce inputs fs0).errMsg
            = some (ConfigError.render (ConfigError.invalidStructure "brands")))
    ∧ (∀ e k : String,
        ConfigError.render ConfigError.fileNotFound
            ≠ ConfigError.render (ConfigError.jsonError e)
        ∧ ConfigError.render ConfigError.fileNotFound
            ≠ ConfigError.render (ConfigError.invalidStructure k)
        ∧ ConfigError.render (ConfigError.jsonError e)
            ≠ ConfigError.render (ConfigError.invalidStructure k)) := by
  refine ⟨⟨rfl, rfl, rfl⟩, fun e => ⟨rfl, rfl, rfl⟩, ?_, ?_, ?_⟩
  · intro cfg hc
    refine ⟨?_, ?_, ?_⟩ <;> simp [run, load_configuration, hc]
  · intro cfg cs hc hb
    refine ⟨?_, ?_, ?_⟩ <;> simp [run, load_configuration, hc, hb]
  · intro e k
    refine ⟨?_, ?_, ?_⟩ <;> intro hx <;>
      have h2 := congrArg (fun s => s.data.head?) hx
    · simp only [head_render_fileNotFound, head_render_jsonError] at h2
      exact absurd h2 (by decide)
    · simp only [head_render_fileNotFound, head_render_invalidStructure] at h2
      exact absurd h2 (by decide)
    · simp only [head_render_jsonError, head_render_invalidStructure] at h2
      exact absurd h2 (by decide)

/-- C4 witness: the missing-key case at a concrete config, and the
json-vs-structure messages differ at concrete arguments. -/
theorem load_configuration_error_cases_witness :
    ((run (LoadInput.parsed ⟨none, none⟩) ⟨fun _ => true, true, fun _ => true⟩
        ⟨fun _ => true, fun _ => true, fun _ fs => fs⟩ [] ⟨[], []⟩).exitCode = 1
      ∧ (run (LoadInput.parsed ⟨none, none⟩) ⟨fun _ => true, true, fun _ => true⟩
        ⟨fun _ => true, fun _ => true, fun _ fs => fs⟩ [] ⟨[], []⟩).trace = []
      ∧ (run (LoadInput.parsed ⟨none, none⟩) ⟨fun _ => true, true, fun _ => true⟩
        ⟨fun _ => true, fun _ => true, fun _ fs => fs⟩ [] ⟨[], []⟩).errMsg
          = some (ConfigError.render (ConfigError.invalidStructure "consoles")))
    ∧ ConfigError.render (ConfigError.jsonError "line 3 column 1")
        ≠ ConfigError.render (ConfigError.invalidStructure "consoles") := by
  have h := load_configuration_error_cases ⟨fun _ => true, true, fun _ => true⟩
    ⟨fun _ => true, fun _ => true, fun _ fs => fs⟩ [] ⟨[], []⟩
  exact ⟨h.2.2.1 ⟨none, none⟩ rfl, (h.2.2.2.2 "line 3 column 1" "consoles").2.2⟩

/-! ## Run-level claims -/

/-- C5: entering the reserved value 0 at the brand menu returns no
selection, and a run whose brand menu returns no selection terminates with
exit code 0, the working directory exactly as it started, and no cleanup,
copy or language stage in the trace. -/
theorem brand_menu_exit_no_changes (cs : List Console) (bs : List String)
    (fe : FsEnv) (ce : CopyEnv) (fs0 : FS) (i0 : String) (r1 r2 : List String)
    (s : String) (rest : List String)
    (hs : pyInt? (pyStrip s) = some 0)
    (hq : (pyLower (pyStrip i0) == "q") = false)
    (hbm : brand_menu_loop bs r1 = MenuOut.done none r2) :
    brand_menu_loop bs (s :: rest) = MenuOut.done none rest
    ∧ run (LoadInput.parsed ⟨some cs, some bs⟩) fe ce (i0 :: r1) fs0
        = ⟨0, fs0, [Ev.menuBrand], none⟩ := by
  constructor
  · have hstrip : ¬ (pyStrip s = "") := by
      intro hx
      rw [hx, show pyInt? "" = none from rfl] at hs
      exact Option.noConfusion hs
    have hstripb : (pyStrip s == "") = false := beq_eq_false_iff_ne.mpr hstrip
    unfold brand_menu_loop
    rw [brand_menu_go, hstripb, hs]
    simp
  · simp [run, load_configuration, hq, hbm]

/-- C5 witness: a concrete run that exits at the brand menu with input 0. -/
theorem brand_menu_exit_no_changes_witness :
    brand_menu_loop ["BrandA"] ["0"] = MenuOut.done none []
    ∧ run (LoadInput.parsed ⟨some [⟨"x", "X", [⟨"BrandA", "XC"⟩], []⟩], some ["BrandA"]⟩)
        ⟨fun _ => true, true, fun _ => true⟩ ⟨fun _ => true, fun _ => true, fun _ fs => fs⟩
        ["", "0"] ⟨[(".cn", "chinese"), ("a.dtb", "d")], ["BMPs"]⟩
        = ⟨0, ⟨[(".cn", "chinese"), ("a.dtb", "d")], ["BMPs"]⟩, [Ev.menuBrand], none⟩ :=
  brand_menu_exit_no_changes [⟨"x", "X", [⟨"BrandA", "XC"⟩], []⟩] ["BrandA"]
    ⟨fun _ => true, true, fun _ => true⟩ ⟨fun _ => true, fun _ => true, fun _ fs => fs⟩
    ⟨[(".cn", "chinese"), ("a.dtb", "d")], ["BMPs"]⟩ "" ["0"] [] "0" []
    (by decide) (by decide) (by decide)

/-- C8: the cleanup and copy stages run exactly when the confirmation
input, stripped and lowercased, is an affirmative token; any other input
ends the run with exit code 0 and no filesystem change; and the affirmative
tokens are exactly "s", "sim", "y", "yes". -/
theorem confirmation_gates_stages (cs : List Console) (bs : List String)
    (fe : FsEnv) (ce : CopyEnv) (fs0 : FS) (i0 : String) (r1 r2 : List String)
    (b : String) (c : Console) (ci : String) (r4 : List String)
    (hq : (pyLower (pyStrip i0) == "q") = false)
    (hbm : brand_menu_loop bs r1 = MenuOut.done (some b) r2)
    (hb : (b == "") = false)
    (hcm : console_menu cs b r2 = MenuOut.done (some c) (ci :: r4)) :
    (affirmatives.contains (pyLower (pyStrip (pyStrip ci))) = false →
        run (LoadInput.parsed ⟨some cs, some bs⟩) fe ce (i0 :: r1) fs0
          = ⟨0, fs0, [Ev.menuBrand, Ev.menuConsole], none⟩)
    ∧ (affirmatives.contains (pyLower (pyStrip (pyStrip ci))) = true →
        Ev.cleanupStage
            ∈ (run (LoadInput.parsed ⟨some cs, some bs⟩) fe ce (i0 :: r1) fs0).trace
        ∧ Ev.copyStage
            ∈ (run (LoadInput.parsed ⟨some cs, some bs⟩) fe ce (i0 :: r1) fs0).trace)
    ∧ (∀ x : String,
        affirmatives.contains x = true ↔ (x = "s" ∨ x = "sim" ∨ x = "y" ∨ x = "yes")) := by
  refine ⟨?_, ?_, ?_⟩
  · intro hconf
    have hmem : ¬ (pyLower (pyStrip (pyStrip ci)) ∈ affirmatives) := by
      simp at hconf; exact hconf
    simp [run, load_configuration, hq, hbm, hb, hcm, hmem]
  · intro hconf
    have hmem : pyLower (pyStrip (pyStrip ci)) ∈ affirmatives := by
      simp at hconf; exact hconf
    cases hcpy : (copy_console ce c (clean_destination_directory fe fs0)).1
    · simp [run, load_configuration, hq, hbm, hb, hcm, hmem, hcpy]
    · cases hlm : language_menu r4 with
      | eof => simp [run, load_configuration, hq, hbm, hb, hcm, hmem, hcpy, hlm]
      | done o r5 =>
          cases o <;> simp [run, load_configuration, hq, hbm, hb, hcm, hmem, hcpy, hlm]
  · intro x
    constructor
    · intro hx
      simp [affirmatives] at hx
      tauto
    · intro hx
      simp [affirmatives]
      tauto

/-- C8 witness: a concrete non-affirmative confirmation leaves the
filesystem unchanged, and "yes" is an affirmative token. -/
theorem confirmation_gates_stages_witness :
    run (LoadInput.parsed ⟨some [⟨"x", "X", [⟨"BrandA", "X Console"⟩], []⟩], some ["BrandA"]⟩)
        ⟨fun _ => true, true, fun _ => true⟩ ⟨fun _ => true, fun _ => true, fun _ fs => fs⟩
        ["", "1", "1", "n"] ⟨[("a.dtb", "d")], []⟩
      = ⟨0, ⟨[("a.dtb", "d")], []⟩, [Ev.menuBrand, Ev.menuConsole], none⟩
    ∧ (affirmatives.contains "yes" = true
        ↔ (("yes" : String) = "s" ∨ ("yes" : String) = "sim" ∨ ("yes" : String) = "y"
            ∨ ("yes" : String) = "yes")) := by
  have h := confirmation_gates_stages [⟨"x", "X", [⟨"BrandA", "X Console"⟩], []⟩] ["BrandA"]
    ⟨fun _ => true, true, fun _ => true⟩ ⟨fun _ => true, fun _ => true, fun _ fs => fs⟩
    ⟨[("a.dtb", "d")], []⟩ "" ["1", "1", "n"] ["1", "n"] "BrandA"
    ⟨"x", "X Console", [⟨"BrandA", "X Console"⟩], []⟩ "n" []
    (by decide) (by decide) (by decide) (by decide)
  exact ⟨h.1 (by decide), h.2.2 "yes"⟩

/-- C10: at the language menu an empty (after stripping) input returns no
selection immediately without re-prompting, just like choice 0; in a run
whose language menu receives such an input, `apply_language` is never
invoked — the run ends with the post-copy filesystem and no apply-language
event in the trace. -/
theorem language_menu_empty_input (cs : List Console) (bs : List String)
    (fe : FsEnv) (ce : CopyEnv) (fs0 : FS) (i0 : String) (r1 r2 : List String)
    (b : String) (c : Console) (ci s : String) (r5 : List String)
    (hq : (pyLower (pyStrip i0) == "q") = false)
    (hbm : brand_menu_loop bs r1 = MenuOut.done (some b) r2)
    (hb : (b == "") = false)
    (hcm : console_menu cs b r2 = MenuOut.done (some c) (ci :: (s :: r5)))
    (hconf : affirmatives.contains (pyLower (pyStrip (pyStrip ci))) = true)
    (hcpy : (copy_console ce c (clean_destination_directory fe fs0)).1 = true)
    (hs : pyStrip s = "") :
    language_menu (s :: r5) = MenuOut.done none r5
    ∧ language_menu ("0" :: r5) = MenuOut.done none r5
    ∧ run (LoadInput.parsed ⟨some cs, some bs⟩) fe ce (i0 :: r1) fs0
        = ⟨0, (copy_console ce c (clean_destination_directory fe fs0)).2,
            [Ev.menuBrand, Ev.menuConsole, Ev.cleanupStage, Ev.copyStage, Ev.menuLanguage],
            none⟩ := by
  have h1 : language_menu (s :: r5) = MenuOut.done none r5 := by
    unfold language_menu
    rw [language_menu_go, hs]
    simp
  have h2 : language_menu ("0" :: r5) = MenuOut.done none r5 := by
    unfold language_menu
    rw [language_menu_go, show pyStrip "0" = "0" from by decide,
        show pyInt? "0" = some 0 from by decide]
    simp
  refine ⟨h1, h2, ?_⟩
  have hmem : pyLower (pyStrip (pyStrip ci)) ∈ affirmatives := by
    simp at hconf; exact hconf
  simp [run, load_configuration, hq, hbm, hb, hcm, hmem, hcpy, h1]

/-- C10 witness: a concrete run in which the language menu gets an empty
input. -/
theorem language_menu_empty_input_witness :
    language_menu [""] = MenuOut.done none []
    ∧ language_menu ["0"] = MenuOut.done none []
    ∧ run (LoadInput.parsed ⟨some [⟨"x", "X", [⟨"BrandA", "X Console"⟩], []⟩], some ["BrandA"]⟩)
        ⟨fun _ => true, true, fun _ => true⟩ ⟨fun _ => true, fun _ => true, fun _ fs => fs⟩
        ["", "1", "1", "y", ""] ⟨[], []⟩
        = ⟨0, (copy_console ⟨fun _ => true, fun _ => true, fun _ fs => fs⟩
                ⟨"x", "X Console", [⟨"BrandA", "X Console"⟩], []⟩
                (clean_destination_directory ⟨fun _ => true, true, fun _ => true⟩ ⟨[], []⟩)).2,
            [Ev.menuBrand, Ev.menuConsole, Ev.cleanupStage, Ev.copyStage, Ev.menuLanguage],
            none⟩ :=
  language_menu_empty_input [⟨"x", "X", [⟨"BrandA", "X Console"⟩], []⟩] ["BrandA"]
    ⟨fun _ => true, true, fun _ => true⟩ ⟨fun _ => true, fun _ => true, fun _ fs => fs⟩
    ⟨[], []⟩ "" ["1", "1", "y", ""] ["1", "y", ""] "BrandA"
    ⟨"x", "X Console", [⟨"BrandA", "X Console"⟩], []⟩ "y" "" []
    (by decide) (by decide) (by decide) (by decide) (by decide) (by decide) (by decide)

/-- C1 counterexample: a concrete run that starts with the `.cn` marker
present, reaches the language menu (trace shows it) and answers 0 ("keep
current setting"), yet ends without the marker — the cleanup stage deleted
it. The claim that the initial marker still exists unchanged at the end of
such a run is therefore false. -/
theorem marker_lost_despite_keep_current :
    (FS.hasFile ⟨[(".cn", "chinese")], []⟩ ".cn") = true
    ∧ (run (LoadInput.parsed ⟨some [⟨"x", "X", [⟨"BrandA", "X Console"⟩], []⟩],
            some ["BrandA"]⟩)
        ⟨fun _ => true, true, fun _ => true⟩ ⟨fun _ => true, fun _ => true, fun _ fs => fs⟩
        ["", "1", "1", "y", "0", ""] ⟨[(".cn", "chinese")], []⟩).trace
        = [Ev.menuBrand, Ev.menuConsole, Ev.cleanupStage, Ev.copyStage, Ev.menuLanguage]
    ∧ (run (LoadInput.parsed ⟨some [⟨"x", "X", [⟨"BrandA", "X Console"⟩], []⟩],
            some ["BrandA"]⟩)
        ⟨fun _ => true, true, fun _ => true⟩ ⟨fun _ => true, fun _ => true, fun _ fs => fs⟩
        ["", "1", "1", "y", "0", ""] ⟨[(".cn", "chinese")], []⟩).fs.hasFile ".cn" = false
    ∧ (run (LoadInput.parsed ⟨some [⟨"x", "X", [⟨"BrandA", "X Console"⟩], []⟩],
            some ["BrandA"]⟩)
        ⟨fun _ => true, true, fun _ => true⟩ ⟨fun _ => true, fun _ => true, fun _ fs => fs⟩
        ["", "1", "1", "y", "0", ""] ⟨[(".cn", "chinese")], []⟩).exitCode = 0 := by
  decide

/-- C1 (amended): in a run that reaches the language menu and chooses
"keep current" (choice 0 or empty input), `apply_language` is not invoked,
so the final filesystem is exactly the cleanup-then-copy result; but the
cleanup stage has already deleted any pre-existing `.cn`/`.br` marker
(assuming the deletions succeed), so the marker that existed at the start
of the run does not survive; markers persist only across runs that never
reach the cleanup stage. -/
theorem keep_current_yields_post_copy_state (cs : List Console) (bs : List String)
    (fe : FsEnv) (ce : CopyEnv) (fs0 : FS) (i0 : String) (r1 r2 : List String)
    (b : String) (c : Console) (ci : String) (r4 r5 : List String)
    (hq : (pyLower (pyStrip i0) == "q") = false)
    (hbm : brand_menu_loop bs r1 = MenuOut.done (some b) r2)
    (hb : (b == "") = false)
    (hcm : console_menu cs b r2 = MenuOut.done (some c) (ci :: r4))
    (hconf : affirmatives.contains (pyLower (pyStrip (pyStrip ci))) = true)
    (hcpy : (copy_console ce c (clean_destination_directory fe fs0)).1 = true)
    (hlm : language_menu r4 = MenuOut.done none r5)
    (hcn : fe.removeOk ".cn" = true) (hbr : fe.removeOk ".br" = true) :
    run (LoadInput.parsed ⟨some cs, some bs⟩) fe ce (i0 :: r1) fs0
        = ⟨0, (copy_console ce c (clean_destination_directory fe fs0)).2,
            [Ev.menuBrand, Ev.menuConsole, Ev.cleanupStage, Ev.copyStage, Ev.menuLanguage],
            none⟩
    ∧ (clean_destination_directory fe fs0).hasFile ".cn" = false
    ∧ (clean_destination_directory fe fs0).hasFile ".br" = false := by
  refine ⟨?_, clean_destination_removes_cn fe fs0 hcn, clean_destination_removes_br fe fs0 hbr⟩
  have hmem : pyLower (pyStrip (pyStrip ci)) ∈ affirmatives := by
    simp at hconf; exact hconf
  simp [run, load_configuration, hq, hbm, hb, hcm, hmem, hcpy, hlm]

/-- C1 (amended) witness: a concrete keep-current run. -/
theorem keep_current_yields_post_copy_state_witness :
    run (LoadInput.parsed ⟨some [⟨"x", "X", [⟨"BrandA", "X Console"⟩], []⟩], some ["BrandA"]⟩)
        ⟨fun _ => true, true, fun _ => true⟩ ⟨fun _ => true, fun _ => true, fun _ fs => fs⟩
        ["", "1", "1", "y", "0", ""] ⟨[(".cn", "chinese")], []⟩
        = ⟨0, (copy_console ⟨fun _ => true, fun _ => true, fun _ fs => fs⟩
                ⟨"x", "X Console", [⟨"BrandA", "X Console"⟩], []⟩
                (clean_destination_directory ⟨fun _ => true, true, fun _ => true⟩
                  ⟨[(".cn", "chinese")], []⟩)).2,
            [Ev.menuBrand, Ev.menuConsole, Ev.cleanupStage, Ev.copyStage, Ev.menuLanguage],
            none⟩
    ∧ (clean_destination_directory ⟨fun _ => true, true, fun _ => true⟩
          ⟨[(".cn", "chinese")], []⟩).hasFile ".cn" = false
    ∧ (clean_destination_directory ⟨fun _ => true, true, fun _ => true⟩
          ⟨[(".cn", "chinese")], []⟩).hasFile ".br" = false :=
  keep_current_yields_post_copy_state [⟨"x", "X", [⟨"BrandA", "X Console"⟩], []⟩] ["BrandA"]
    ⟨fun _ => true, true, fun _ => true⟩ ⟨fun _ => true, fun _ => true, fun _ fs => fs⟩
    ⟨[(".cn", "chinese")], []⟩ "" ["1", "1", "y", "0", ""] ["1", "y", "0", ""] "BrandA"
    ⟨"x", "X Console", [⟨"BrandA", "X Console"⟩], []⟩ "y" ["0", ""] [""]
    (by decide) (by decide) (by decide) (by decide) (by decide) (by decide) (by decide)
    rfl rfl

